import Mathlib

/-! Shallow embedding of the network core of the open-xiaoai audio-streaming
system: UDP service discovery (client and server side), the TCP control-frame
length check, the audio jitter buffer, and the RPC manager. Byte strings are
modelled as `List ℕ` whose elements are byte values. -/

/-- Absolute difference on naturals, mirroring `u64::abs_diff`. -/
def absDiff (a b : ℕ) : ℕ := if a < b then b - a else a - b

/-- Big-endian interpretation of a byte list, mirroring `BigEndian::read_u64`
applied to a slice. -/
def readBE (bytes : List ℕ) : ℕ := bytes.foldl (fun acc b => 256 * acc + b) 0

/-- Big-endian two-byte encoding of a port, mirroring `BigEndian::write_u16`. -/
def portBytesBE (p : ℕ) : List ℕ := [p / 256 % 256, p % 256]

/-- Embeds `UdpDiscoveryService::parse_response` (client-rust `udp.rs`): the
response must hold at least 38 bytes; the IPv4 address is read from bytes
32..36 and the big-endian port from bytes 36..38. `none` stands for the
source's `Err("Invalid response length")`. -/
def UdpDiscoveryService.parse_response (response : List ℕ) :
    Option ((ℕ × ℕ × ℕ × ℕ) × ℕ) :=
  if response.length < 38 then none
  else some ((response.getD 32 0, response.getD 33 0,
      response.getD 34 0, response.getD 35 0),
    256 * response.getD 36 0 + response.getD 37 0)

/-- Embeds the per-datagram acceptance step of `UdpDiscoveryService::discover`
(client-rust `udp.rs`): an incoming datagram is handed to `parse_response`
exactly when it starts with the first 32 bytes of the request `packet` that
was just broadcast (`response.starts_with(&packet[..32])`). `none` covers
both "keep waiting for the next datagram" and a parse error. -/
def UdpDiscoveryService.handle_datagram (packet response : List ℕ) :
    Option ((ℕ × ℕ × ℕ × ℕ) × ℕ) :=
  if (packet.take 32).isPrefixOf response then
    UdpDiscoveryService.parse_response response
  else none

/-- Embeds `DiscoveryService::validate_packet` (discovery-rust
`discovery_protocol.rs`): the datagram length must be exactly 28 and the
big-endian timestamp stored in bytes 20..28 must be within 30 seconds of the
current time `now` (`current_time.abs_diff(timestamp) <= 30`). -/
def DiscoveryService.validate_packet (data : List ℕ) (now : ℕ) : Bool :=
  if data.length ≠ 28 then false
  else decide (absDiff now (readBE ((data.drop 20).take 8)) ≤ 30)

/-- Embeds `DiscoveryService::create_response` (discovery-rust
`discovery_protocol.rs`). The external HMAC-SHA256 primitive (the `hmac` and
`sha2` crates) is abstracted as the parameter `hmacFn`, applied to the secret
and to the concatenation of the two `mac.update` slices used by the source:
`request[..28]` followed by `response[28..34]`. -/
def DiscoveryService.create_response (hmacFn : List ℕ → List ℕ → List ℕ)
    (secret : List ℕ) (ws_port : ℕ) (ip : List ℕ) (request : List ℕ) :
    List ℕ :=
  let response0 := request.take 28
  let response1 := response0 ++ ip
  let response2 := response1 ++ portBytesBE ws_port
  let macInput := request.take 28 ++ (response2.drop 28).take 6
  response2 ++ hmacFn secret macInput

/-- Embeds one iteration of the receive loop in `DiscoveryService::start`
(discovery-rust): a response is built and sent back exactly for the datagrams
that `validate_packet` accepts; everything else is silently dropped. -/
def DiscoveryService.handle (hmacFn : List ℕ → List ℕ → List ℕ)
    (secret : List ℕ) (ws_port : ℕ) (ip : List ℕ) (data : List ℕ)
    (now : ℕ) : Option (List ℕ) :=
  if DiscoveryService.validate_packet data now then
    some (DiscoveryService.create_response hmacFn secret ws_port ip data)
  else none

/-- Embeds the length-prefix check of `ControlConnection::recv_packet`
(client-v2 `network.rs`): a frame whose 4-byte big-endian length prefix
exceeds `10 * 1024 * 1024` is rejected with an error that closes the
connection; otherwise the body is read and decoded. -/
def ControlConnection.recv_len_check (len : ℕ) : Except String ℕ :=
  if len > 10 * 1024 * 1024 then Except.error "Packet too large"
  else Except.ok len

/-- Modelled from the spec: the `AudioPacket` record consumed by the jitter
buffer — `sequence: u32`, `timestamp: u128` microseconds, opaque payload. The
copy of `protocol.rs` under `src/` carries only the payload field, while
`jitter_buffer.rs` reads `packet.seq` and `packet.timestamp`; the missing
fields are taken from the spec's data model. -/
structure AudioPacket where
  seq : ℕ
  timestamp : ℕ
  data : List ℕ
deriving DecidableEq

/-- Embeds `JitterConfig` (client-v2 `jitter_buffer.rs`). -/
structure JitterConfig where
  min_buffer_size : ℕ
  max_buffer_size : ℕ
  target_buffer_size : ℕ
  adapt_interval : ℕ
  max_tolerable_delay : ℕ
deriving DecidableEq

/-- Embeds `JitterConfig::default`: min 2, max 20, target 5, adapt every 50
pushes, 100 ms (100,000 µs) maximum tolerable delay. -/
def JitterConfig.default : JitterConfig :=
  { min_buffer_size := 2, max_buffer_size := 20, target_buffer_size := 5,
    adapt_interval := 50, max_tolerable_delay := 100000 }

/-- Embeds `JitterStats` (client-v2 `jitter_buffer.rs`). -/
structure JitterStats where
  received : ℕ
  lost : ℕ
  played : ℕ
  late : ℕ
  duplicate : ℕ
  buffer_size : ℕ
  min_delay : ℕ
  max_delay : ℕ
  avg_delay : ℕ
deriving DecidableEq

/-- The all-zero `JitterStats::default()`. -/
def JitterStats.init : JitterStats :=
  { received := 0, lost := 0, played := 0, late := 0, duplicate := 0,
    buffer_size := 0, min_delay := 0, max_delay := 0, avg_delay := 0 }

/-- Embeds `JitterBuffer` (client-v2 `jitter_buffer.rs`). The
`BTreeMap<u128, AudioPacket>` is modelled as an association list kept sorted
by strictly increasing timestamp key, so the map's first entry is the list
head. -/
structure JitterBuffer where
  config : JitterConfig
  buffer : List (ℕ × AudioPacket)
  stats : JitterStats
  expected_seq : ℕ
  first_packet_received : Bool
  delay_samples : List ℕ
  adapt_counter : ℕ
  last_played_timestamp : ℕ
deriving DecidableEq

/-- Key membership in the buffer, mirroring `BTreeMap::contains_key`. -/
def containsKey (k : ℕ) (l : List (ℕ × AudioPacket)) : Bool :=
  l.any (fun kv => kv.1 == k)

/-- Ordered insertion into the sorted association list, mirroring
`BTreeMap::insert` for a key that is not already present. -/
def insertSorted (k : ℕ) (v : AudioPacket) :
    List (ℕ × AudioPacket) → List (ℕ × AudioPacket)
  | [] => [(k, v)]
  | (k0, v0) :: rest =>
    if k < k0 then (k, v) :: (k0, v0) :: rest
    else (k0, v0) :: insertSorted k v rest

/-- Embeds `JitterBuffer::new`. -/
def JitterBuffer.new (config : JitterConfig) : JitterBuffer :=
  { config := config, buffer := [], stats := JitterStats.init,
    expected_seq := 0, first_packet_received := false, delay_samples := [],
    adapt_counter := 0, last_played_timestamp := 0 }

/-- Embeds `JitterBuffer::update_delay_stats`: min, max, a 9/10 sliding
average, and a delay-sample window capped at 100 entries. -/
def JitterBuffer.update_delay_stats (jb : JitterBuffer) (delay : ℕ) :
    JitterBuffer :=
  let stats :=
    if jb.stats.received = 0 then
      { jb.stats with
          min_delay := delay
          max_delay := delay
          avg_delay := delay }
    else
      { jb.stats with
          min_delay := min jb.stats.min_delay delay
          max_delay := max jb.stats.max_delay delay
          avg_delay := (jb.stats.avg_delay * 9 + delay) / 10 }
  let samples0 := jb.delay_samples ++ [delay]
  let samples := if samples0.length > 100 then samples0.tail else samples0
  { jb with stats := stats, delay_samples := samples }

/-- Embeds `JitterBuffer::adapt_buffer_size`. The floating-point jitter
(standard-deviation) computation that picks the new unclamped target depth is
abstracted as the parameter `newTarget`; the early return below 10 delay
samples and the clamping of the target to
`[min_buffer_size, max_buffer_size]` are modelled concretely. -/
def JitterBuffer.adapt_buffer_size (jb : JitterBuffer) (newTarget : ℕ) :
    JitterBuffer :=
  if jb.delay_samples.length < 10 then jb
  else
    let clamped :=
      min (max newTarget jb.config.min_buffer_size) jb.config.max_buffer_size
    { jb with config := { jb.config with target_buffer_size := clamped } }

/-- Embeds the sequence-number block of `JitterBuffer::push`: the first
packet seeds `expected_seq = seq + 1`; afterwards
`seq_diff = packet.seq.wrapping_sub(expected_seq)` adds to the lost counter
exactly when `0 < seq_diff < 1000`, and `expected_seq` becomes `seq + 1`.
`u32` wrapping arithmetic is modelled modulo `4294967296`, valid for the
`u32`-ranged values the source stores. -/
def JitterBuffer.push_seq_update (jb : JitterBuffer) (packet : AudioPacket) :
    JitterBuffer :=
  if !jb.first_packet_received then
    { jb with
        expected_seq := (packet.seq + 1) % 4294967296
        first_packet_received := true }
  else
    let seq_diff := (packet.seq + 4294967296 - jb.expected_seq) % 4294967296
    let jb1 :=
      if 0 < seq_diff ∧ seq_diff < 1000 then
        { jb with stats := { jb.stats with lost := jb.stats.lost + seq_diff } }
      else jb
    { jb1 with expected_seq := (packet.seq + 1) % 4294967296 }

/-- Embeds the acceptance tail of `JitterBuffer::push`: delay statistics,
ordered insertion, received and buffer-size counters, and the adaptive
resize every `adapt_interval` pushes. -/
def JitterBuffer.push_insert (newTarget : ℕ) (jb : JitterBuffer)
    (packet : AudioPacket) (arrival_time : ℕ) : JitterBuffer :=
  let delay :=
    if packet.timestamp ≥ arrival_time then packet.timestamp - arrival_time
    else 0
  let jb2 := jb.update_delay_stats delay
  let jb3 : JitterBuffer :=
    { jb2 with buffer := insertSorted packet.timestamp packet jb2.buffer }
  let stats4 :=
    { jb3.stats with
        received := jb3.stats.received + 1
        buffer_size := jb3.buffer.length }
  let jb4 : JitterBuffer := { jb3 with stats := stats4 }
  let jb5 : JitterBuffer := { jb4 with adapt_counter := jb4.adapt_counter + 1 }
  if jb5.adapt_counter ≥ jb5.config.adapt_interval then
    { jb5.adapt_buffer_size newTarget with adapt_counter := 0 }
  else jb5

/-- Embeds `JitterBuffer::push` (client-v2 `jitter_buffer.rs`): duplicate
detection, sequence accounting, the two late-drop checks (timestamp before
the last played one, or arrival more than `max_tolerable_delay` after the
packet timestamp), then insertion. -/
def JitterBuffer.push (newTarget : ℕ) (jb : JitterBuffer)
    (packet : AudioPacket) (arrival_time : ℕ) : JitterBuffer :=
  if containsKey packet.timestamp jb.buffer then
    { jb with stats := { jb.stats with duplicate := jb.stats.duplicate + 1 } }
  else
    let jb1 := jb.push_seq_update packet
    if jb1.last_played_timestamp > 0 ∧
        packet.timestamp < jb1.last_played_timestamp then
      { jb1 with stats := { jb1.stats with late := jb1.stats.late + 1 } }
    else if packet.timestamp < arrival_time ∧
        arrival_time - packet.timestamp > jb1.config.max_tolerable_delay then
      { jb1 with stats := { jb1.stats with late := jb1.stats.late + 1 } }
    else
      jb1.push_insert newTarget packet arrival_time

/-- Embeds `JitterBuffer::should_drain`: the buffer is non-empty and holds at
least `min_buffer_size` packets. -/
def JitterBuffer.should_drain (jb : JitterBuffer) : Bool :=
  !jb.buffer.isEmpty && decide (jb.config.min_buffer_size ≤ jb.buffer.length)

/-- Embeds `JitterBuffer::pop` (client-v2 `jitter_buffer.rs`): empty check,
the depth gate (`len < target_buffer_size` and not draining), then release
of the earliest-timestamp packet once `current_time` has reached it,
updating `last_played_timestamp`, `played` and `buffer_size`. -/
def JitterBuffer.pop (jb : JitterBuffer) (current_time : ℕ) :
    Option AudioPacket × JitterBuffer :=
  if jb.buffer.isEmpty then (none, jb)
  else if jb.buffer.length < jb.config.target_buffer_size ∧
      jb.should_drain = false then (none, jb)
  else
    match jb.buffer with
    | [] => (none, jb)
    | (k, p) :: rest =>
      if current_time ≥ k then
        let stats2 :=
          { jb.stats with
              played := jb.stats.played + 1
              buffer_size := rest.length }
        (some p,
          { jb with
              buffer := rest
              last_played_timestamp := k
              stats := stats2 })
      else (none, jb)

/-- One interaction with the jitter buffer: a `push` (with its abstracted
adaptive-target oracle value) or a `pop` at a given current time. -/
inductive JitterOp where
  | push (newTarget : ℕ) (packet : AudioPacket) (arrival : ℕ)
  | pop (now : ℕ)

/-- Runs a sequence of operations against a jitter buffer, collecting the
timestamps of the packets returned by `pop` in order. -/
def JitterBuffer.runOps (jb : JitterBuffer) :
    List JitterOp → JitterBuffer × List ℕ
  | [] => (jb, [])
  | JitterOp.push t p a :: rest => JitterBuffer.runOps (jb.push t p a) rest
  | JitterOp.pop now :: rest =>
    match jb.pop now with
    | (some p, jb2) =>
      let r := JitterBuffer.runOps jb2 rest
      (r.1, p.timestamp :: r.2)
    | (none, jb2) => JitterBuffer.runOps jb2 rest

/-- Well-formedness of the buffer list: keys strictly increasing, as in a
`BTreeMap` iteration. -/
def SortedKeys (l : List (ℕ × AudioPacket)) : Prop :=
  List.Pairwise (· < ·) (l.map Prod.fst)

/-- Invariant connecting the buffer contents to the playback cursor: the
buffer is sorted, every buffered key is at least the last played timestamp,
and — as enforced by `buffer.insert(packet.timestamp, packet)` — every entry
is keyed by its packet's timestamp. -/
def JitterBuffer.Inv (jb : JitterBuffer) : Prop :=
  SortedKeys jb.buffer ∧
    (∀ kv ∈ jb.buffer, jb.last_played_timestamp ≤ kv.1) ∧
    (∀ kv ∈ jb.buffer, kv.1 = kv.2.timestamp)

/-- The operation sequence of the C2 counterexample: deliver timestamps 5 and
6, pop once (releasing timestamp 5), push a fresh packet with timestamp 5
again, and pop again. -/
def jitterCexOps : List JitterOp :=
  [JitterOp.push 0 ⟨0, 5, []⟩ 5, JitterOp.push 0 ⟨1, 6, []⟩ 6,
    JitterOp.pop 10, JitterOp.push 0 ⟨2, 5, []⟩ 5, JitterOp.pop 10]

/-- The push sequence of the spec's jitter-loss scenario: seqs 0, 1, 3, 4, 5
with matching timestamps, each arriving exactly on time. -/
def jitterLossOps : List JitterOp :=
  [JitterOp.push 0 ⟨0, 100, []⟩ 100, JitterOp.push 0 ⟨1, 200, []⟩ 200,
    JitterOp.push 0 ⟨3, 300, []⟩ 300, JitterOp.push 0 ⟨4, 400, []⟩ 400,
    JitterOp.push 0 ⟨5, 500, []⟩ 500]

/-- Embeds `ShellResponse` (client-v2 `utils/shell.rs`). -/
structure ShellResponse where
  stdout : String
  stderr : String
  exit_code : Int
deriving DecidableEq

/-- Embeds `SetVolumeRequest` (client-v2 `net/command.rs`). -/
structure SetVolumeRequest where
  volume : ℕ
deriving DecidableEq

/-- Embeds `SetVolumeResponse` (client-v2 `net/command.rs`). -/
structure SetVolumeResponse where
  previous : ℕ
  current : ℕ
deriving DecidableEq

/-- Embeds `FileRequest` (client-v2 `net/command.rs`). -/
inductive FileRequest where
  | Read (path : String)
  | Write (path : String) (data : List ℕ)
  | Delete (path : String)
  | List (path : String)
  | Stat (path : String)

/-- Embeds `FileEntry` (client-v2 `net/command.rs`). -/
structure FileEntry where
  name : String
  is_dir : Bool
  size : ℕ

/-- Embeds `FileStat` (client-v2 `net/command.rs`). -/
structure FileStat where
  size : ℕ
  is_dir : Bool
  modified : ℕ

/-- Embeds `FileResponse` (client-v2 `net/command.rs`). -/
inductive FileResponse where
  | Data (d : List ℕ)
  | Written (bytes : ℕ)
  | Deleted
  | Entries (es : List FileEntry)
  | Stat (s : FileStat)

/-- Embeds `SystemRequest` (client-v2 `net/command.rs`). -/
inductive SystemRequest where
  | Reboot
  | Shutdown
  | GetLoad
  | GetMemory

/-- Embeds `SystemResponse` (client-v2 `net/command.rs`); the `f32` load
averages are carried as `Float`. -/
inductive SystemResponse where
  | Accepted
  | Load (one five fifteen : Float)
  | Memory (total used free : ℕ)

/-- Embeds `CustomRequest` (client-v2 `net/command.rs`). -/
structure CustomRequest where
  name : String
  payload : List ℕ

/-- Embeds `CustomResponse` (client-v2 `net/command.rs`). -/
structure CustomResponse where
  payload : List ℕ

/-- Embeds `AudioState` (client-v2 `net/command.rs`). -/
structure AudioState where
  is_recording : Bool
  is_playing : Bool
  volume : ℕ

/-- Embeds `DeviceInfo` (client-v2 `net/command.rs`). -/
structure DeviceInfo where
  model : String
  serial_number : String
  version : String
  uptime_secs : ℕ
  audio_state : AudioState

/-- Embeds the `Command` enum (client-v2 `net/command.rs`). The `Shell`
payload is the command text, matching `pub type ShellRequest = String` in
`utils/shell.rs`, which is what `rpc.rs` hands to `Shell::run`. -/
inductive Command where
  | Shell (req : String)
  | GetInfo
  | SetVolume (req : SetVolumeRequest)
  | File (req : FileRequest)
  | System (req : SystemRequest)
  | Custom (req : CustomRequest)
  | Ping (timestamp : ℕ)

/-- Embeds `CommandError` (client-v2 `net/command.rs`). -/
structure CommandError where
  code : Int
  message : String
deriving DecidableEq

/-- Embeds `CommandError::new`. -/
def CommandError.new (code : Int) (message : String) : CommandError :=
  { code := code, message := message }

/-- Embeds `CommandError::internal` (code −500). -/
def CommandError.internal (msg : String) : CommandError :=
  CommandError.new (-500) msg

/-- Embeds `CommandError::timeout` (code −408). -/
def CommandError.timeout (msg : String) : CommandError :=
  CommandError.new (-408) msg

/-- Embeds `CommandError::not_implemented` (code −501). -/
def CommandError.not_implemented : CommandError :=
  CommandError.new (-501) "Not implemented"

/-- Embeds the `CommandResult` enum (client-v2 `net/command.rs`). -/
inductive CommandResult where
  | Shell (resp : ShellResponse)
  | Info (info : DeviceInfo)
  | Volume (resp : SetVolumeResponse)
  | File (resp : FileResponse)
  | System (resp : SystemResponse)
  | Custom (resp : CustomResponse)
  | Pong (timestamp server_time : ℕ)
  | Error (err : CommandError)

/-- Embeds `RpcError` (client-v2 `net/rpc.rs`). -/
inductive RpcError where
  | Timeout
  | Cancelled
  | Internal (msg : String)

/-- How the await on the one-shot response channel in `RpcManager::call`
resolves: a result was delivered, the sender was dropped (channel closed),
the caller's timer elapsed first, or the calling future itself was dropped
before completion. -/
inductive WaitOutcome where
  | received (r : CommandResult)
  | closed
  | timedOut
  | dropped

/-- Embeds `RpcManager::call` (client-v2 `net/rpc.rs`) as a function of the
pending-table contents and of oracles for the two awaited effects: whether
`send_fn` succeeded, and how the wait on the one-shot channel resolved. The
pending table is the list of registered ids; the `DropGuard` installed right
after `pending.insert(id, tx)` removes `id` on every exit path, including
the early send-error return and a drop of the calling future. A `none`
first component means the call never returned (its future was dropped).
With `timeout = none` the source awaits `rx` with no timer, so a `timedOut`
resolution cannot occur; that junk combination is mapped to no return. -/
def RpcManager.call (pending : List ℕ) (id : ℕ) (sendOk : Bool)
    (sendErr : String) (timeout : Option ℕ) (wait : WaitOutcome) :
    Option (Except RpcError CommandResult) × List ℕ :=
  let pending1 := id :: pending
  if !sendOk then
    (some (Except.error (RpcError.Internal sendErr)), pending1.erase id)
  else
    match timeout, wait with
    | some _, WaitOutcome.received r => (some (Except.ok r), pending1.erase id)
    | some _, WaitOutcome.closed =>
      (some (Except.error RpcError.Cancelled), pending1.erase id)
    | some _, WaitOutcome.timedOut =>
      (some (Except.error RpcError.Timeout), pending1.erase id)
    | some _, WaitOutcome.dropped => (none, pending1.erase id)
    | none, WaitOutcome.received r => (some (Except.ok r), pending1.erase id)
    | none, WaitOutcome.closed =>
      (some (Except.error RpcError.Cancelled), pending1.erase id)
    | none, WaitOutcome.timedOut => (none, pending1.erase id)
    | none, WaitOutcome.dropped => (none, pending1.erase id)

/-- Recognizes a successful `CommandResult` outcome of `RpcManager.call`. -/
def isSuccessResult : Option (Except RpcError CommandResult) → Bool
  | some (Except.ok _) => true
  | _ => false

/-- Embeds `Shell::run` (client-v2 `utils/shell.rs`) over a time oracle:
`duration` is the wall-clock runtime of the spawned `sh -c` child and
`result` its captured output; with a timer of `ms` milliseconds the inner
`tokio::time::timeout` fails with `Shell execution timed out` when the child
runs longer than the timer. -/
def Shell.run (command : String) (timeout_ms : Option ℕ) (duration : ℕ)
    (result : ShellResponse) : Except String ShellResponse :=
  match timeout_ms with
  | some ms => if ms < duration then Except.error "Shell execution timed out"
      else Except.ok result
  | none => Except.ok result

/-- Embeds `RpcHandler::handle` (client-v2 `net/rpc.rs`): `Shell` commands
run through `Shell::run` (mapping errors to `CommandError::internal`), every
other command answers `CommandError::not_implemented`. -/
def RpcHandler.handle (command : Command) (timeout_ms : Option ℕ)
    (duration : ℕ) (shellResult : ShellResponse) : CommandResult :=
  match command with
  | Command.Shell req =>
    match Shell.run req timeout_ms duration shellResult with
    | Except.ok r => CommandResult.Shell r
    | Except.error e => CommandResult.Error (CommandError.internal e)
  | _ => CommandResult.Error CommandError.not_implemented

/-- True exactly for the commands whose handling spawns an `sh -c` child
process (`kill_on_drop(true)` is set on it). -/
def Command.spawnsShellChild : Command → Bool
  | Command.Shell _ => true
  | _ => false

/-- The `RpcResponse` control packet produced by the responder. -/
structure RpcResponsePacket where
  id : ℕ
  result : CommandResult

/-- The timeout message formatted by `RpcManager::handle_rpc_request`:
`Task {id} timed out after {ms}ms`. -/
def rpcTimeoutMessage (id ms : ℕ) : String :=
  "Task " ++ toString id ++ " timed out after " ++ toString ms ++ "ms"

/-- Which of the two equal-duration timers is observed first when a Shell
command outlives the `ms` timer. `RpcManager::handle_rpc_request` wraps the
handler future in `tokio::time::timeout(ms, ..)` while `handler.handle`
passes the same `ms` into `Shell::run`, whose inner
`tokio::time::timeout(ms, run_logic)` is armed only slightly later; when the
child outlives the timer, both deadlines expire essentially together, and
which `Elapsed` surfaces depends on scheduling (tokio's `Timeout` polls the
wrapped future before its own sleep, so an expired inner timer is seen
first). The source fixes neither outcome, so the winner is an oracle. -/
inductive TimerRace where
  | outer
  | inner

/-- Embeds the response task of `RpcManager::handle_rpc_request` (client-v2
`net/rpc.rs`) over the same time oracle as `Shell.run`, with the timer race
made explicit. With `timeout_ms = some ms` and a command running longer than
`ms`, the outcome depends on `race`: if the outer timer fires first the
response carries `CommandError::timeout` (code −408) with the formatted
`Task .. timed out after ..ms` message, and dropping the handler future
drops the `sh -c` child spawned with `kill_on_drop(true)` (SIGKILL); if the
inner timer inside `Shell::run` is observed first, `Shell::run` returns
`Err("Shell execution timed out")`, the handler maps it to
`CommandError::internal` (code −500), the outer timeout sees a completed
future and sends that response — and the child, owned by the dropped
`run_logic` future, is SIGKILLed all the same. The second component records
whether a shell child was killed. `run_async` only chooses between spawning
and awaiting the same task and does not affect the response, so it is not a
parameter. -/
def RpcManager.handle_rpc_request (id : ℕ) (timeout_ms : Option ℕ)
    (command : Command) (duration : ℕ) (shellResult : ShellResponse)
    (race : TimerRace) : RpcResponsePacket × Bool :=
  match timeout_ms with
  | none =>
    ({ id := id, result := RpcHandler.handle command none duration shellResult },
      false)
  | some ms =>
    if ms < duration then
      match race with
      | TimerRace.outer =>
        ({ id := id, result := CommandResult.Error
            (CommandError.timeout (rpcTimeoutMessage id ms)) },
          command.spawnsShellChild)
      | TimerRace.inner =>
        ({ id := id,
            result := RpcHandler.handle command (some ms) duration shellResult },
          command.spawnsShellChild)
    else
      ({ id := id,
          result := RpcHandler.handle command (some ms) duration shellResult },
        false)

/-- The 60-byte discovery request used in the counterexample run: the device
id `xiaoai-device-01`, nonce 1, timestamp 0, and 32 trailing bytes standing
for the request HMAC (their value is irrelevant to acceptance). -/
def discoverySentPacket : List ℕ :=
  [120, 105, 97, 111, 97, 105, 45, 100, 101, 118, 105, 99, 101, 45, 48, 49] ++
    [0, 0, 0, 1] ++ [0, 0, 0, 0, 0, 0, 0, 0] ++ List.replicate 32 7

/-- A 70-byte datagram echoing the first 32 bytes of `discoverySentPacket`,
then IPv4 192.168.1.10, port 8080 big-endian, then 32 zero bytes. -/
def discoveryResponseA : List ℕ :=
  discoverySentPacket.take 32 ++ [192, 168, 1, 10, 31, 144] ++
    List.replicate 32 0

/-- Like `discoveryResponseA` but with 32 one-bytes in the trailing
position. -/
def discoveryResponseB : List ℕ :=
  discoverySentPacket.take 32 ++ [192, 168, 1, 10, 31, 144] ++
    List.replicate 32 1

/-- A 38-byte datagram: the echoed 32 bytes plus IPv4 and port only, with no
trailing 32 bytes at all. -/
def discoveryResponseShort : List ℕ :=
  discoverySentPacket.take 32 ++ [192, 168, 1, 10, 31, 144]

/-- C1 counterexample. The claim states that every response accepted by the
client's `discover()` carries, in its trailing 32 bytes, the HMAC-SHA256 of
(echoed request, server IPv4, server port) under the shared secret, checked
by the client before parsing. The two accepted datagrams below agree on the
echoed request, the IPv4 and the port — hence on the claimed HMAC value — yet
differ in their trailing 32 bytes, so they cannot both satisfy the claim; the
client accepts both because it only compares the 32-byte prefix and never
recomputes an HMAC. A 38-byte datagram (shorter than the 66 bytes the claim
presupposes) is accepted as well. -/
theorem discover_accepts_unverified_responses_cex :
    UdpDiscoveryService.handle_datagram discoverySentPacket discoveryResponseA
        = some ((192, 168, 1, 10), 8080) ∧
      UdpDiscoveryService.handle_datagram discoverySentPacket discoveryResponseB
        = some ((192, 168, 1, 10), 8080) ∧
      discoveryResponseA.take 38 = discoveryResponseB.take 38 ∧
      discoveryResponseA.drop 38 ≠ discoveryResponseB.drop 38 ∧
      discoveryResponseA.length = 70 ∧ discoveryResponseB.length = 70 ∧
      UdpDiscoveryService.handle_datagram discoverySentPacket
          discoveryResponseShort = some ((192, 168, 1, 10), 8080) ∧
      discoveryResponseShort.length = 38 := by
  exact ⟨by decide, by decide, by decide, by decide, by decide, by decide,
    by decide, by decide⟩

/-- C1 amended: the client's `discover()` accepts exactly the datagrams of
length at least 38 that start with the first 32 bytes of the request it just
sent; it performs no HMAC recomputation or comparison, and on acceptance it
returns the IPv4 read from bytes 32..36 and the big-endian port from bytes
36..38. -/
theorem discover_acceptance_characterization (packet response : List ℕ) :
    UdpDiscoveryService.handle_datagram packet response =
      if (packet.take 32).isPrefixOf response = true ∧ 38 ≤ response.length then
        some ((response.getD 32 0, response.getD 33 0,
            response.getD 34 0, response.getD 35 0),
          256 * response.getD 36 0 + response.getD 37 0)
      else none := by
  unfold UdpDiscoveryService.handle_datagram UdpDiscoveryService.parse_response
  by_cases h : (packet.take 32).isPrefixOf response = true
  · by_cases h2 : 38 ≤ response.length
    · rw [if_pos h, if_neg (by omega), if_pos ⟨h, h2⟩]
    · rw [if_pos h, if_pos (by omega), if_neg (fun hc => h2 hc.2)]
  · rw [if_neg h, if_neg (fun hc => h hc.1)]

/-- C4 counterexample. The claim states that a control frame whose length
prefix is 1,048,577 (one byte over 1 MiB) is rejected with an error that
closes the connection; the source accepts it, because its limit is
`10 * 1024 * 1024` bytes. -/
theorem control_frame_1MiB_cex :
    ControlConnection.recv_len_check 1048577 = Except.ok 1048577 ∧
      ControlConnection.recv_len_check 1048577 ≠
        Except.error "Packet too large" := by
  have h : ControlConnection.recv_len_check 1048577 = Except.ok 1048577 := by rfl
  exact ⟨h, by rw [h]; exact fun hc => Except.noConfusion hc⟩

/-- C4 amended: a received control frame passes the size check exactly when
its length prefix is at most 10,485,760 (10 MiB); in particular both
1,048,576 and 1,048,577 are accepted, 10,485,760 is accepted, and 10,485,761
is rejected with the error that closes the connection. -/
theorem control_frame_limit_characterization (len : ℕ) :
    (ControlConnection.recv_len_check len = Except.ok len ↔ len ≤ 10485760) ∧
      ControlConnection.recv_len_check 1048576 = Except.ok 1048576 ∧
      ControlConnection.recv_len_check 10485760 = Except.ok 10485760 ∧
      ControlConnection.recv_len_check 10485761 =
        Except.error "Packet too large" := by
  refine ⟨?_, by rfl, by rfl, by rfl⟩
  unfold ControlConnection.recv_len_check
  by_cases hl : len > 10 * 1024 * 1024
  · rw [if_pos hl]
    exact ⟨fun h => Except.noConfusion h, fun h => absurd h (by omega)⟩
  · rw [if_neg hl]
    exact ⟨fun _ => by omega, fun _ => rfl⟩

/-- C6: the discovery server responds exactly to datagrams of length 28 whose
embedded big-endian timestamp is within 30 seconds of the local clock; a
request stamped now − 30 (here 970 against now = 1000) is answered, one
stamped now − 31 is dropped, and any datagram of a different length is
dropped. -/
theorem discovery_server_accept_window (hmacFn : List ℕ → List ℕ → List ℕ)
    (secret : List ℕ) (ws_port : ℕ) (ip : List ℕ) (data : List ℕ) (now : ℕ) :
    ((DiscoveryService.handle hmacFn secret ws_port ip data now).isSome ↔
      (data.length = 28 ∧ absDiff now (readBE ((data.drop 20).take 8)) ≤ 30)) ∧
      (DiscoveryService.handle hmacFn secret ws_port ip
        [0, 0, 0, 0, 0, 0, 0, 0, 0, 0, 0, 0, 0, 0, 0, 0, 0, 0, 0, 0,
          0, 0, 0, 0, 0, 0, 3, 202] 1000).isSome = true ∧
      DiscoveryService.handle hmacFn secret ws_port ip
        [0, 0, 0, 0, 0, 0, 0, 0, 0, 0, 0, 0, 0, 0, 0, 0, 0, 0, 0, 0,
          0, 0, 0, 0, 0, 0, 3, 201] 1000 = none ∧
      DiscoveryService.handle hmacFn secret ws_port ip
        [0, 0, 0, 0, 0, 0, 0, 0, 0, 0, 0, 0, 0, 0, 0, 0, 0, 0, 0, 0,
          0, 0, 0, 0, 0, 0, 3] 1000 = none := by
  have hval : ∀ d n, DiscoveryService.validate_packet d n = true ↔
      (d.length = 28 ∧ absDiff n (readBE ((d.drop 20).take 8)) ≤ 30) := by
    intro d n
    unfold DiscoveryService.validate_packet
    by_cases h : d.length ≠ 28
    · rw [if_pos h]
      simp [h]
    · rw [if_neg h]
      push_neg at h
      simp [h]
  refine ⟨?_, ?_, ?_, ?_⟩
  · unfold DiscoveryService.handle
    by_cases h : DiscoveryService.validate_packet data now = true
    · rw [if_pos h]
      simpa using (hval data now).mp h
    · rw [if_neg h]
      simp only [Option.isSome_none, Bool.false_eq_true, false_iff]
      exact fun hc => h ((hval data now).mpr hc)
  · unfold DiscoveryService.handle
    rw [if_pos (show DiscoveryService.validate_packet _ 1000 = true by decide)]
    rfl
  · unfold DiscoveryService.handle
    rw [if_neg (show ¬DiscoveryService.validate_packet _ 1000 = true by decide)]
  · unfold DiscoveryService.handle
    rw [if_neg (show ¬DiscoveryService.validate_packet _ 1000 = true by decide)]

/-- C7: for a 28-byte request the server's response is laid out as the echoed
request, the 4-byte IPv4, the 2-byte big-endian port, and the 32-byte HMAC
computed over (request, IPv4, port) under the shared secret; with a 32-byte
MAC output the response is exactly 66 bytes. -/
theorem discovery_response_layout (hmacFn : List ℕ → List ℕ → List ℕ)
    (secret ip request : List ℕ) (ws_port : ℕ)
    (hreq : request.length = 28) (hip : ip.length = 4)
    (hmac32 : ∀ s m, (hmacFn s m).length = 32) :
    DiscoveryService.create_response hmacFn secret ws_port ip request =
      request ++ ip ++ portBytesBE ws_port ++
        hmacFn secret (request ++ ip ++ portBytesBE ws_port) ∧
      (DiscoveryService.create_response hmacFn secret ws_port ip request).length
        = 66 := by
  have htake : request.take 28 = request :=
    List.take_of_length_le (le_of_eq hreq)
  have hdrop : ((request ++ ip ++ portBytesBE ws_port).drop 28).take 6 =
      ip ++ portBytesBE ws_port := by
    rw [List.append_assoc, ← hreq, List.drop_left]
    apply List.take_of_length_le
    simp [hip, portBytesBE]
  constructor
  · unfold DiscoveryService.create_response
    dsimp only
    rw [htake, hdrop]
    simp [List.append_assoc]
  · unfold DiscoveryService.create_response
    dsimp only
    rw [htake, hdrop]
    simp [hreq, hip, portBytesBE, hmac32]

/-- Witness for `discovery_response_layout` at the concrete input of the
spec's discovery happy-path scenario: secret "k", port 8080, IPv4
192.168.1.10, with a constant all-zero stand-in for the MAC output. -/
theorem discovery_response_layout_witness :
    DiscoveryService.create_response (fun _ _ => List.replicate 32 0) [107]
        8080 [192, 168, 1, 10] (List.replicate 28 0) =
      List.replicate 28 0 ++ [192, 168, 1, 10] ++ portBytesBE 8080 ++
        List.replicate 32 0 ∧
      (DiscoveryService.create_response (fun _ _ => List.replicate 32 0) [107]
        8080 [192, 168, 1, 10] (List.replicate 28 0)).length = 66 := by
  have h := discovery_response_layout (fun _ _ => List.replicate 32 0) [107]
    [192, 168, 1, 10] (List.replicate 28 0) 8080 (by simp) (by decide)
    (fun s m => by simp)
  exact h

/-- Membership after an ordered insertion: every entry is the new pair or an
old entry. -/
theorem mem_insertSorted (k : ℕ) (v : AudioPacket) :
    ∀ (l : List (ℕ × AudioPacket)) (kv : ℕ × AudioPacket),
      kv ∈ insertSorted k v l → kv = (k, v) ∨ kv ∈ l := by
  intro l
  induction l with
  | nil =>
    intro kv h
    simp [insertSorted] at h
    left
    exact h
  | cons hd tl ih =>
    intro kv h
    obtain ⟨k0, v0⟩ := hd
    simp only [insertSorted] at h
    split at h
    · rcases List.mem_cons.mp h with h1 | h1
      · left; exact h1
      · right; exact h1
    · rcases List.mem_cons.mp h with h1 | h1
      · right; exact List.mem_cons.mpr (Or.inl h1)
      · rcases ih kv h1 with h2 | h2
        · left; exact h2
        · right; exact List.mem_cons.mpr (Or.inr h2)

/-- Ordered insertion of an absent key keeps the key list strictly sorted. -/
theorem sortedKeys_insertSorted (k : ℕ) (v : AudioPacket) :
    ∀ l, SortedKeys l → (∀ kv ∈ l, kv.1 ≠ k) →
      SortedKeys (insertSorted k v l) := by
  intro l
  induction l with
  | nil =>
    intro _ _
    simp [insertSorted, SortedKeys]
  | cons hd tl ih =>
    obtain ⟨k0, v0⟩ := hd
    intro hs hne
    simp only [SortedKeys, List.map_cons] at hs
    obtain ⟨hhead, htail⟩ := List.pairwise_cons.mp hs
    simp only [insertSorted]
    split
    · rename_i hlt
      simp only [SortedKeys, List.map_cons]
      refine List.Pairwise.cons ?_ hs
      intro x hx
      rcases List.mem_cons.mp hx with rfl | hx2
      · exact hlt
      · exact lt_trans hlt (hhead x hx2)
    · rename_i hlt
      have hk0 : k0 ≠ k := hne (k0, v0) (List.mem_cons.mpr (Or.inl rfl))
      have hgt : k0 < k := lt_of_le_of_ne (not_lt.mp hlt) hk0
      simp only [SortedKeys, List.map_cons]
      refine List.Pairwise.cons ?_ ?_
      · intro x hx
        rcases List.mem_map.mp hx with ⟨kv, hkv, rfl⟩
        rcases mem_insertSorted k v tl kv hkv with rfl | h2
        · exact hgt
        · exact hhead kv.1 (List.mem_map.mpr ⟨kv, h2, rfl⟩)
      · exact ih htail (fun kv hkv => hne kv (List.mem_cons.mpr (Or.inr hkv)))

/-- Ordered insertion preserves a lower bound on all keys. -/
theorem lowerBound_insertSorted (t k : ℕ) (v : AudioPacket)
    (l : List (ℕ × AudioPacket)) (hl : ∀ kv ∈ l, t ≤ kv.1) (hk : t ≤ k) :
    ∀ kv ∈ insertSorted k v l, t ≤ kv.1 := by
  intro kv h
  rcases mem_insertSorted k v l kv h with rfl | h2
  · exact hk
  · exact hl kv h2

/-- Ordered insertion of a timestamp-keyed pair keeps every entry keyed by
its packet's timestamp. -/
theorem keyed_insertSorted (k : ℕ) (v : AudioPacket)
    (l : List (ℕ × AudioPacket)) (hl : ∀ kv ∈ l, kv.1 = kv.2.timestamp)
    (hk : k = v.timestamp) :
    ∀ kv ∈ insertSorted k v l, kv.1 = kv.2.timestamp := by
  intro kv h
  rcases mem_insertSorted k v l kv h with rfl | h2
  · exact hk
  · exact hl kv h2

/-- A missing key (`containsKey = false`) differs from every stored key. -/
theorem ne_of_not_containsKey (k : ℕ) (l : List (ℕ × AudioPacket))
    (h : containsKey k l = false) : ∀ kv ∈ l, kv.1 ≠ k := by
  intro kv hkv
  unfold containsKey at h
  rw [List.any_eq_false] at h
  have := h kv hkv
  simpa using this

/-- `update_delay_stats` touches only the delay statistics and the sample
window. -/
theorem update_delay_stats_fields (jb : JitterBuffer) (d : ℕ) :
    (jb.update_delay_stats d).buffer = jb.buffer ∧
      (jb.update_delay_stats d).last_played_timestamp =
        jb.last_played_timestamp ∧
      (jb.update_delay_stats d).config = jb.config ∧
      (jb.update_delay_stats d).expected_seq = jb.expected_seq ∧
      (jb.update_delay_stats d).stats.lost = jb.stats.lost ∧
      (jb.update_delay_stats d).stats.late = jb.stats.late ∧
      (jb.update_delay_stats d).stats.received = jb.stats.received := by
  unfold JitterBuffer.update_delay_stats
  dsimp only
  refine ⟨rfl, rfl, rfl, rfl, ?_, ?_, ?_⟩ <;> (split <;> rfl)

/-- `adapt_buffer_size` touches only the configured target depth. -/
theorem adapt_buffer_size_fields (jb : JitterBuffer) (t : ℕ) :
    (jb.adapt_buffer_size t).buffer = jb.buffer ∧
      (jb.adapt_buffer_size t).last_played_timestamp =
        jb.last_played_timestamp ∧
      (jb.adapt_buffer_size t).stats = jb.stats ∧
      (jb.adapt_buffer_size t).expected_seq = jb.expected_seq := by
  unfold JitterBuffer.adapt_buffer_size
  refine ⟨?_, ?_, ?_, ?_⟩ <;> (split <;> rfl)

/-- `push_seq_update` touches only the sequence accounting. -/
theorem push_seq_update_fields (jb : JitterBuffer) (p : AudioPacket) :
    (jb.push_seq_update p).buffer = jb.buffer ∧
      (jb.push_seq_update p).last_played_timestamp =
        jb.last_played_timestamp ∧
      (jb.push_seq_update p).config = jb.config ∧
      (jb.push_seq_update p).stats.late = jb.stats.late ∧
      (jb.push_seq_update p).stats.received = jb.stats.received ∧
      (jb.push_seq_update p).stats.duplicate = jb.stats.duplicate := by
  unfold JitterBuffer.push_seq_update
  dsimp only
  refine ⟨?_, ?_, ?_, ?_, ?_, ?_⟩ <;>
    (split
     · rfl
     · split <;> rfl)


/-- Field accounting of the acceptance tail of `push`: the packet is
inserted at its timestamp, `received` grows by one, and the loss and late
counters, the sequence cursor and the playback cursor are untouched. -/
theorem push_insert_fields (n : ℕ) (jb : JitterBuffer) (p : AudioPacket)
    (a : ℕ) :
    (JitterBuffer.push_insert n jb p a).buffer =
        insertSorted p.timestamp p jb.buffer ∧
      (JitterBuffer.push_insert n jb p a).last_played_timestamp =
        jb.last_played_timestamp ∧
      (JitterBuffer.push_insert n jb p a).stats.lost = jb.stats.lost ∧
      (JitterBuffer.push_insert n jb p a).stats.late = jb.stats.late ∧
      (JitterBuffer.push_insert n jb p a).stats.received =
        jb.stats.received + 1 ∧
      (JitterBuffer.push_insert n jb p a).expected_seq = jb.expected_seq := by
  unfold JitterBuffer.push_insert JitterBuffer.adapt_buffer_size
    JitterBuffer.update_delay_stats
  dsimp only
  refine ⟨?_, ?_, ?_, ?_, ?_, ?_⟩ <;> (repeat' split) <;> rfl

/-- A buffer-and-cursor-preserving step preserves the invariant. -/
theorem inv_of_same (jb1 jb2 : JitterBuffer) (hb : jb1.buffer = jb2.buffer)
    (hl : jb1.last_played_timestamp = jb2.last_played_timestamp)
    (h : jb2.Inv) : jb1.Inv := by
  unfold JitterBuffer.Inv
  rw [hb, hl]
  exact h

/-- `push` preserves the buffer invariant and never moves the playback
cursor. -/
theorem push_preserves_inv (n : ℕ) (jb : JitterBuffer) (p : AudioPacket)
    (a : ℕ) (h : jb.Inv) :
    (JitterBuffer.push n jb p a).Inv ∧
      (JitterBuffer.push n jb p a).last_played_timestamp =
        jb.last_played_timestamp := by
  have hpsu := push_seq_update_fields jb p
  have hpi := push_insert_fields n (jb.push_seq_update p) p a
  unfold JitterBuffer.push
  by_cases hdup : containsKey p.timestamp jb.buffer = true
  · rw [if_pos hdup]
    exact ⟨h, rfl⟩
  · have hdupf : containsKey p.timestamp jb.buffer = false := by
      simpa using hdup
    rw [if_neg hdup]
    dsimp only
    split
    · exact ⟨inv_of_same _ jb hpsu.1 hpsu.2.1 h, hpsu.2.1⟩
    · split
      · exact ⟨inv_of_same _ jb hpsu.1 hpsu.2.1 h, hpsu.2.1⟩
      · rename_i hstale hdelay
        have hb : (JitterBuffer.push_insert n (jb.push_seq_update p) p
            a).buffer = insertSorted p.timestamp p jb.buffer := by
          rw [hpi.1, hpsu.1]
        have hl : (JitterBuffer.push_insert n (jb.push_seq_update p) p
            a).last_played_timestamp = jb.last_played_timestamp := by
          rw [hpi.2.1, hpsu.2.1]
        obtain ⟨hs, hlb, hkey⟩ := h
        have hts : jb.last_played_timestamp ≤ p.timestamp := by
          rw [hpsu.2.1] at hstale
          omega
        refine ⟨?_, hl⟩
        unfold JitterBuffer.Inv
        rw [hb, hl]
        refine ⟨?_, ?_, ?_⟩
        · exact sortedKeys_insertSorted p.timestamp p jb.buffer hs
            (ne_of_not_containsKey _ _ hdupf)
        · exact lowerBound_insertSorted _ _ _ _ hlb hts
        · exact keyed_insertSorted _ _ _ hkey rfl

/-- Case analysis of `pop`: either nothing is released and the state is
unchanged, or the earliest packet is released, its timestamp is at least the
playback cursor, and the cursor advances to it while the invariant is kept. -/
theorem pop_cases (jb : JitterBuffer) (now : ℕ) (h : jb.Inv) :
    jb.pop now = (none, jb) ∨
      ∃ p jb2, jb.pop now = (some p, jb2) ∧
        jb.last_played_timestamp ≤ p.timestamp ∧ jb2.Inv ∧
        jb2.last_played_timestamp = p.timestamp := by
  obtain ⟨hs, hlb, hkey⟩ := h
  unfold JitterBuffer.pop
  split
  · left; rfl
  · split
    · left; rfl
    · split
      · left; rfl
      · rename_i k p rest hbuf
        split
        · rename_i hnow
          right
          have hmem : (k, p) ∈ jb.buffer := by
            rw [hbuf]; exact List.mem_cons.mpr (Or.inl rfl)
          have hkp : k = p.timestamp := hkey (k, p) hmem
          rw [hbuf] at hs
          unfold SortedKeys at hs
          rw [List.map_cons] at hs
          obtain ⟨hhead, htail⟩ := List.pairwise_cons.mp hs
          refine ⟨p, _, rfl, ?_, ?_, ?_⟩
          · rw [← hkp]
            exact hlb (k, p) hmem
          · refine ⟨htail, ?_, ?_⟩
            · intro kv hkv
              exact le_of_lt (hhead kv.1 (List.mem_map.mpr ⟨kv, hkv, rfl⟩))
            · intro kv hkv
              exact hkey kv (by rw [hbuf]; exact List.mem_cons.mpr (Or.inr hkv))
          · exact hkp
        · left; rfl

/-- Along any run, the playback cursor followed by the released timestamps
forms a non-decreasing chain. -/
theorem runOps_chain (ops : List JitterOp) :
    ∀ jb : JitterBuffer, jb.Inv →
      List.Chain' (· ≤ ·)
        (jb.last_played_timestamp :: (JitterBuffer.runOps jb ops).2) := by
  induction ops with
  | nil =>
    intro jb _
    simp [JitterBuffer.runOps]
  | cons op rest ih =>
    intro jb h
    cases op with
    | push t p a =>
      have hp := push_preserves_inv t jb p a h
      have hrw : (JitterBuffer.runOps jb (JitterOp.push t p a :: rest)).2 =
          (JitterBuffer.runOps (JitterBuffer.push t jb p a) rest).2 := rfl
      rw [hrw, ← hp.2]
      exact ih (JitterBuffer.push t jb p a) hp.1
    | pop now =>
      rcases pop_cases jb now h with hpair | ⟨p, jb2, hpair, hle, hinv2, hlast⟩
      · have hrw : (JitterBuffer.runOps jb (JitterOp.pop now :: rest)).2 =
            (JitterBuffer.runOps jb rest).2 := by
          simp only [JitterBuffer.runOps, hpair]
        rw [hrw]
        exact ih jb h
      · have hrw : (JitterBuffer.runOps jb (JitterOp.pop now :: rest)).2 =
            p.timestamp :: (JitterBuffer.runOps jb2 rest).2 := by
          simp only [JitterBuffer.runOps, hpair]
        rw [hrw]
        refine List.chain'_cons.mpr ⟨hle, ?_⟩
        have h2 := ih jb2 hinv2
        rwa [hlast] at h2

/-- C2 counterexample. The claim states that `pop` never returns a packet
whose timestamp is less than or equal to the previously returned one. In the
run below the buffer releases timestamp 5, a fresh packet with the same
timestamp 5 is then pushed (the late check `packet.timestamp <
last_played_timestamp` is strict, so it is admitted), and the next `pop`
returns timestamp 5 again — equal to, not greater than, the previous one. -/
theorem jitter_pop_equal_timestamp_cex :
    (JitterBuffer.runOps (JitterBuffer.new JitterConfig.default)
        jitterCexOps).2 = [5, 5] ∧
      ¬ List.Chain' (· < ·)
        (JitterBuffer.runOps (JitterBuffer.new JitterConfig.default)
          jitterCexOps).2 := by
  have h : (JitterBuffer.runOps (JitterBuffer.new JitterConfig.default)
      jitterCexOps).2 = [5, 5] := by decide
  refine ⟨h, ?_⟩
  rw [h]
  intro hc
  exact absurd (List.chain'_cons.mp hc).1 (by omega)

/-- C2 amended: over every sequence of pushes and pops on a fresh jitter
buffer (any configuration), the timestamps returned by successive `pop`
calls are non-decreasing — a packet with timestamp strictly below the
previously returned one is never released, but a packet with an equal
timestamp can be. -/
theorem jitter_pop_timestamps_monotone (config : JitterConfig)
    (ops : List JitterOp) :
    List.Chain' (· ≤ ·)
      ((JitterBuffer.runOps (JitterBuffer.new config) ops).2) := by
  have hinv : (JitterBuffer.new config).Inv := by
    refine ⟨?_, ?_, ?_⟩ <;> simp [JitterBuffer.new, SortedKeys]
  exact (runOps_chain ops (JitterBuffer.new config) hinv).tail

/-- C8: on a buffer that has already seen its first packet, a push of a
packet whose timestamp is not yet buffered adds
`gap = (seq − expected_seq) mod 2^32` to the lost counter exactly when
`0 < gap < 1000` and then sets `expected_seq = seq + 1 mod 2^32`; pushing
fresh packets with seqs 0, 1, 3, 4, 5 (timestamps matching, none late or
duplicate) yields `lost = 1` and `received = 5`. -/
theorem jitter_loss_gap_accounting (n : ℕ) (jb : JitterBuffer)
    (p : AudioPacket) (a : ℕ)
    (hfirst : jb.first_packet_received = true)
    (hdup : containsKey p.timestamp jb.buffer = false) :
    ((JitterBuffer.push n jb p a).stats.lost = jb.stats.lost +
        (if 0 < (p.seq + 4294967296 - jb.expected_seq) % 4294967296 ∧
            (p.seq + 4294967296 - jb.expected_seq) % 4294967296 < 1000 then
          (p.seq + 4294967296 - jb.expected_seq) % 4294967296
        else 0) ∧
      (JitterBuffer.push n jb p a).expected_seq =
        (p.seq + 1) % 4294967296) ∧
      ((JitterBuffer.runOps (JitterBuffer.new JitterConfig.default)
          jitterLossOps).1.stats.lost = 1 ∧
        (JitterBuffer.runOps (JitterBuffer.new JitterConfig.default)
          jitterLossOps).1.stats.received = 5) := by
  refine ⟨?_, by decide, by decide⟩
  have hpsu_acc : ((jb.push_seq_update p).stats.lost = jb.stats.lost +
      (if 0 < (p.seq + 4294967296 - jb.expected_seq) % 4294967296 ∧
          (p.seq + 4294967296 - jb.expected_seq) % 4294967296 < 1000 then
        (p.seq + 4294967296 - jb.expected_seq) % 4294967296
      else 0)) ∧
      (jb.push_seq_update p).expected_seq = (p.seq + 1) % 4294967296 := by
    unfold JitterBuffer.push_seq_update
    rw [if_neg (by simp [hfirst])]
    dsimp only
    constructor
    · split
      · rfl
      · omega
    · rfl
  have hpi := push_insert_fields n (jb.push_seq_update p) p a
  unfold JitterBuffer.push
  rw [if_neg (by simp [hdup])]
  dsimp only
  constructor
  · split
    · exact hpsu_acc.1
    · split
      · exact hpsu_acc.1
      · exact hpi.2.2.1.trans hpsu_acc.1
  · split
    · exact hpsu_acc.2
    · split
      · exact hpsu_acc.2
      · exact hpi.2.2.2.2.2.trans hpsu_acc.2

/-- Witness for `jitter_loss_gap_accounting` at a concrete state: a buffer
expecting seq 2 receives seq 3, so a gap of 1 is added to the lost
counter. -/
theorem jitter_loss_gap_accounting_witness :
    (JitterBuffer.push 0
        { JitterBuffer.new JitterConfig.default with
            first_packet_received := true
            expected_seq := 2 }
        ⟨3, 300, []⟩ 300).stats.lost =
      ({ JitterBuffer.new JitterConfig.default with
          first_packet_received := true
          expected_seq := 2 } : JitterBuffer).stats.lost +
        (if 0 < (3 + 4294967296 - 2) % 4294967296 ∧
            (3 + 4294967296 - 2) % 4294967296 < 1000 then
          (3 + 4294967296 - 2) % 4294967296
        else 0) ∧
      (JitterBuffer.push 0
        { JitterBuffer.new JitterConfig.default with
            first_packet_received := true
            expected_seq := 2 }
        ⟨3, 300, []⟩ 300).expected_seq = (3 + 1) % 4294967296 := by
  have h := jitter_loss_gap_accounting 0
    { JitterBuffer.new JitterConfig.default with
        first_packet_received := true
        expected_seq := 2 }
    ⟨3, 300, []⟩ 300 rfl (by decide)
  exact ⟨h.1.1, h.1.2⟩

/-- C9: for a push of a non-duplicate, non-stale packet with the 100 ms
(100,000 µs) tolerance configured, an arrival strictly more than 100 ms
after the packet's timestamp leaves the buffer unchanged and increments only
the late counter, while an arrival exactly 100 ms after the timestamp is
inserted (received grows, late does not). -/
theorem jitter_late_drop_boundary (n : ℕ) (jb : JitterBuffer)
    (p : AudioPacket) (a : ℕ)
    (hdup : containsKey p.timestamp jb.buffer = false)
    (hstale : ¬(jb.last_played_timestamp > 0 ∧
      p.timestamp < jb.last_played_timestamp))
    (hcfg : jb.config.max_tolerable_delay = 100000) :
    (p.timestamp + 100000 < a →
      (JitterBuffer.push n jb p a).buffer = jb.buffer ∧
        (JitterBuffer.push n jb p a).stats.late = jb.stats.late + 1 ∧
        (JitterBuffer.push n jb p a).stats.received = jb.stats.received) ∧
      (a = p.timestamp + 100000 →
        (JitterBuffer.push n jb p a).buffer =
          insertSorted p.timestamp p jb.buffer ∧
        (JitterBuffer.push n jb p a).stats.received = jb.stats.received + 1 ∧
        (JitterBuffer.push n jb p a).stats.late = jb.stats.late) := by
  have hpsu := push_seq_update_fields jb p
  have hpi := push_insert_fields n (jb.push_seq_update p) p a
  unfold JitterBuffer.push
  rw [if_neg (by simp [hdup])]
  dsimp only
  have hstale2 : ¬((jb.push_seq_update p).last_played_timestamp > 0 ∧
      p.timestamp < (jb.push_seq_update p).last_played_timestamp) := by
    rw [hpsu.2.1]
    exact hstale
  rw [if_neg hstale2]
  constructor
  · intro hlt
    have hcond : p.timestamp < a ∧ a - p.timestamp >
        (jb.push_seq_update p).config.max_tolerable_delay := by
      rw [hpsu.2.2.1, hcfg]
      omega
    rw [if_pos hcond]
    refine ⟨hpsu.1, ?_, hpsu.2.2.2.2.1⟩
    exact congrArg (· + 1) hpsu.2.2.2.1
  · intro heq
    have hcond : ¬(p.timestamp < a ∧ a - p.timestamp >
        (jb.push_seq_update p).config.max_tolerable_delay) := by
      rw [hpsu.2.2.1, hcfg]
      omega
    rw [if_neg hcond]
    refine ⟨?_, ?_, ?_⟩
    · rw [hpi.1, hpsu.1]
    · rw [hpi.2.2.2.2.1, hpsu.2.2.2.2.1]
    · rw [hpi.2.2.2.1, hpsu.2.2.2.1]

/-- Witness for `jitter_late_drop_boundary` on a fresh default buffer: a
packet stamped 1000 µs arriving at 101,001 µs is dropped as late, and the
same packet arriving at 101,000 µs (exactly 100 ms later) is inserted. -/
theorem jitter_late_drop_boundary_witness :
    (JitterBuffer.push 0 (JitterBuffer.new JitterConfig.default)
        ⟨0, 1000, []⟩ 101001).buffer = [] ∧
      (JitterBuffer.push 0 (JitterBuffer.new JitterConfig.default)
        ⟨0, 1000, []⟩ 101001).stats.late =
        (JitterBuffer.new JitterConfig.default).stats.late + 1 ∧
      (JitterBuffer.push 0 (JitterBuffer.new JitterConfig.default)
        ⟨0, 1000, []⟩ 101000).buffer =
        insertSorted 1000 ⟨0, 1000, []⟩ [] := by
  have h1 := jitter_late_drop_boundary 0
    (JitterBuffer.new JitterConfig.default) ⟨0, 1000, []⟩ 101001
    (by decide) (by decide) rfl
  have h2 := jitter_late_drop_boundary 0
    (JitterBuffer.new JitterConfig.default) ⟨0, 1000, []⟩ 101000
    (by decide) (by decide) rfl
  have hd1 := h1.1 (by decide)
  have hd2 := h2.2 rfl
  exact ⟨hd1.1, hd1.2.1, hd2.1⟩

/-- C10: with the default depths (min 2, target 5), `pop` releases the
earliest-timestamp packet as soon as its timestamp has been reached whenever
the buffer holds at least 2 packets — even though that is fewer than the
target depth of 5 — because `should_drain` is satisfied at or above
`min_buffer_size`; the depth gate withholds packets only when the buffer
holds exactly one packet. -/
theorem jitter_pop_depth_gate (jb : JitterBuffer) (now : ℕ)
    (hmin : jb.config.min_buffer_size = 2)
    (htarget : jb.config.target_buffer_size = 5)
    (hsort : SortedKeys jb.buffer) :
    (∀ k p rest, jb.buffer = (k, p) :: rest → 2 ≤ jb.buffer.length →
        k ≤ now → (jb.pop now).1 = some p ∧ ∀ kv ∈ jb.buffer, k ≤ kv.1) ∧
      (jb.buffer.length = 1 → (jb.pop now).1 = none) := by
  constructor
  · intro k p rest hbuf hlen hk
    constructor
    · unfold JitterBuffer.pop
      have hne : jb.buffer.isEmpty = false := by rw [hbuf]; rfl
      rw [if_neg (by simp [hne])]
      have hsd : jb.should_drain = true := by
        unfold JitterBuffer.should_drain
        rw [hbuf] at hlen ⊢
        rw [hmin]
        simp at hlen ⊢
        omega
      rw [if_neg (by simp [hsd])]
      rw [hbuf]
      dsimp only
      rw [if_pos hk]
    · intro kv hkv
      rw [hbuf] at hkv hsort
      unfold SortedKeys at hsort
      rw [List.map_cons] at hsort
      obtain ⟨hhead, _⟩ := List.pairwise_cons.mp hsort
      rcases List.mem_cons.mp hkv with rfl | h2
      · exact le_refl k
      · exact le_of_lt (hhead kv.1 (List.mem_map.mpr ⟨kv, h2, rfl⟩))
  · intro hlen
    unfold JitterBuffer.pop
    have hne : jb.buffer.isEmpty = false := by
      rcases hb : jb.buffer with _ | ⟨x, xs⟩
      · rw [hb] at hlen
        simp at hlen
      · rfl
    rw [if_neg (by simp [hne])]
    have hsd : jb.should_drain = false := by
      unfold JitterBuffer.should_drain
      rw [hmin, hlen]
      simp [hne]
    rw [if_pos ⟨by rw [hlen, htarget]; omega, hsd⟩]

/-- Witness for `jitter_pop_depth_gate`: with two due packets buffered the
earliest (timestamp 3) is released at time 10, and with a single buffered
packet `pop` returns nothing even though its timestamp is due. -/
theorem jitter_pop_depth_gate_witness :
    (JitterBuffer.pop
        { JitterBuffer.new JitterConfig.default with
            buffer := [(3, ⟨0, 3, []⟩), (4, ⟨1, 4, []⟩)] } 10).1 =
      some ⟨0, 3, []⟩ ∧
      (JitterBuffer.pop
        { JitterBuffer.new JitterConfig.default with
            buffer := [(4, ⟨1, 4, []⟩)] } 10).1 = none := by
  have h1 := jitter_pop_depth_gate
    { JitterBuffer.new JitterConfig.default with
        buffer := [(3, ⟨0, 3, []⟩), (4, ⟨1, 4, []⟩)] } 10 rfl rfl
    (by unfold SortedKeys; decide)
  have h2 := jitter_pop_depth_gate
    { JitterBuffer.new JitterConfig.default with
        buffer := [(4, ⟨1, 4, []⟩)] } 10 rfl rfl
    (by unfold SortedKeys; decide)
  exact ⟨(h1.1 3 ⟨0, 3, []⟩ [(4, ⟨1, 4, []⟩)] rfl (by decide) (by decide)).1,
    h2.2 rfl⟩

/-- C3 counterexample. The claim states that every call through
`RpcManager::call` ends in exactly one of: a `CommandResult`, `Timeout`, or
`Cancelled`. When `send_fn` fails, the source returns
`RpcError::Internal(e)` — a fourth outcome that is none of the three (the
pending entry is still cleaned up by the guard). -/
theorem rpc_call_internal_outcome_cex :
    (RpcManager.call [] 1 false "send failed" (some 1000)
        WaitOutcome.closed).1 =
      some (Except.error (RpcError.Internal "send failed")) ∧
      isSuccessResult (RpcManager.call [] 1 false "send failed" (some 1000)
        WaitOutcome.closed).1 = false ∧
      (RpcManager.call [] 1 false "send failed" (some 1000)
        WaitOutcome.closed).1 ≠ some (Except.error RpcError.Timeout) ∧
      (RpcManager.call [] 1 false "send failed" (some 1000)
        WaitOutcome.closed).1 ≠ some (Except.error RpcError.Cancelled) ∧
      (RpcManager.call [] 1 false "send failed" (some 1000)
        WaitOutcome.closed).2 = [] := by
  refine ⟨rfl, rfl, ?_, ?_, rfl⟩
  · intro hc
    rw [show (RpcManager.call [] 1 false "send failed" (some 1000)
        WaitOutcome.closed).1 =
      some (Except.error (RpcError.Internal "send failed")) from rfl] at hc
    simp only [Option.some.injEq, Except.error.injEq] at hc
    exact RpcError.noConfusion hc
  · intro hc
    rw [show (RpcManager.call [] 1 false "send failed" (some 1000)
        WaitOutcome.closed).1 =
      some (Except.error (RpcError.Internal "send failed")) from rfl] at hc
    simp only [Option.some.injEq, Except.error.injEq] at hc
    exact RpcError.noConfusion hc

/-- C3 amended: a call through `RpcManager::call` ends in exactly one of: a
delivered `CommandResult`, `Timeout` (timer elapsed), `Cancelled` (response
channel closed), `Internal` (sending the request failed), or no result at
all when the calling future is dropped; and on every one of these exit paths
the pending-table entry for the call's id is absent afterwards. -/
theorem rpc_call_outcome_characterization (pending : List ℕ) (id : ℕ)
    (sendOk : Bool) (sendErr : String) (timeout : Option ℕ)
    (wait : WaitOutcome) (hfresh : id ∉ pending) :
    id ∉ (RpcManager.call pending id sendOk sendErr timeout wait).2 ∧
      (sendOk = false →
        (RpcManager.call pending id sendOk sendErr timeout wait).1 =
          some (Except.error (RpcError.Internal sendErr))) ∧
      (∀ r, sendOk = true → wait = WaitOutcome.received r →
        (RpcManager.call pending id sendOk sendErr timeout wait).1 =
          some (Except.ok r)) ∧
      (sendOk = true → wait = WaitOutcome.closed →
        (RpcManager.call pending id sendOk sendErr timeout wait).1 =
          some (Except.error RpcError.Cancelled)) ∧
      (∀ ms, sendOk = true → timeout = some ms →
        wait = WaitOutcome.timedOut →
        (RpcManager.call pending id sendOk sendErr timeout wait).1 =
          some (Except.error RpcError.Timeout)) ∧
      (sendOk = true → wait = WaitOutcome.dropped →
        (RpcManager.call pending id sendOk sendErr timeout wait).1 =
          none) := by
  unfold RpcManager.call
  cases sendOk <;> cases timeout <;> cases wait <;>
    simp_all [List.erase_cons_head]

/-- Witness for `rpc_call_outcome_characterization` on the success path:
id 1, fresh table, send succeeds, and a `Pong` is received within the
timer. -/
theorem rpc_call_outcome_characterization_witness :
    1 ∉ (RpcManager.call [] 1 true "" (some 5)
        (WaitOutcome.received (CommandResult.Pong 1 2))).2 ∧
      (RpcManager.call [] 1 true "" (some 5)
        (WaitOutcome.received (CommandResult.Pong 1 2))).1 =
        some (Except.ok (CommandResult.Pong 1 2)) := by
  have h := rpc_call_outcome_characterization [] 1 true "" (some 5)
    (WaitOutcome.received (CommandResult.Pong 1 2)) (by simp)
  exact ⟨h.1, h.2.2.1 (CommandResult.Pong 1 2) rfl rfl⟩


/-- C5 counterexample. The claim states that a Shell RPC outliving its
`timeout_ms` makes the responder send `CommandResult::Error` with code −408.
But `handler.handle` passes the same `ms` into `Shell::run`, whose inner
equal-duration timer can be observed first (tokio's `Timeout` polls the
wrapped future before its own sleep): then `Shell::run` returns
`Err("Shell execution timed out")`, the handler maps it to
`CommandError::internal`, and the response the responder sends carries code
−500, not −408. At the claim's own scenario — `Shell("sleep 2")` with
`timeout_ms = 1000` — and the inner timer winning, the unique response has
code −500. -/
theorem shell_rpc_timeout_code_cex :
    (RpcManager.handle_rpc_request 7 (some 1000) (Command.Shell "sleep 2")
        2000 ⟨"", "", 0⟩ TimerRace.inner).1.result =
      CommandResult.Error
        (CommandError.internal "Shell execution timed out") ∧
      (CommandError.internal "Shell execution timed out").code = -500 ∧
      ((-500 : Int) ≠ -408) := by
  refine ⟨rfl, rfl, by decide⟩

/-- C5 amended: when an incoming Shell RPC with `timeout_ms = ms` runs
longer than `ms`, the responder sends exactly one `CommandResult::Error`
whose message contains `timed out`, and the spawned `sh -c` child is killed
(SIGKILL) — but the error code depends on which of the two equal-duration
timers surfaces first: −408 with `Task {id} timed out after {ms}ms` when the
outer `handle_rpc_request` timer fires, and −500 with
`Shell execution timed out` when `Shell::run`'s inner timer is observed
first; the source guarantees neither code. -/
theorem shell_rpc_timeout_race_behavior (id ms duration : ℕ) (cmd : String)
    (shellResult : ShellResponse) (race : TimerRace) (h : ms < duration) :
    (race = TimerRace.outer →
      (RpcManager.handle_rpc_request id (some ms) (Command.Shell cmd)
          duration shellResult race).1.result =
        CommandResult.Error
          (CommandError.new (-408) (rpcTimeoutMessage id ms))) ∧
      (race = TimerRace.inner →
        (RpcManager.handle_rpc_request id (some ms) (Command.Shell cmd)
            duration shellResult race).1.result =
          CommandResult.Error
            (CommandError.new (-500) "Shell execution timed out")) ∧
      (∃ err, (RpcManager.handle_rpc_request id (some ms) (Command.Shell cmd)
          duration shellResult race).1.result = CommandResult.Error err ∧
        "timed out".data <:+: err.message.data) ∧
      (RpcManager.handle_rpc_request id (some ms) (Command.Shell cmd)
        duration shellResult race).2 = true := by
  have hsr : Shell.run cmd (some ms) duration shellResult =
      if ms < duration then Except.error "Shell execution timed out"
      else Except.ok shellResult := rfl
  have hh : RpcHandler.handle (Command.Shell cmd) (some ms) duration
      shellResult =
      match Shell.run cmd (some ms) duration shellResult with
      | Except.ok r => CommandResult.Shell r
      | Except.error e => CommandResult.Error (CommandError.internal e) := rfl
  cases race with
  | outer =>
    have hred : RpcManager.handle_rpc_request id (some ms)
        (Command.Shell cmd) duration shellResult TimerRace.outer =
        if ms < duration then
          ({ id := id, result := CommandResult.Error
              (CommandError.timeout (rpcTimeoutMessage id ms)) },
            (Command.Shell cmd).spawnsShellChild)
        else
          ({ id := id, result := RpcHandler.handle (Command.Shell cmd)
              (some ms) duration shellResult }, false) := rfl
    refine ⟨fun _ => ?_, fun hc => absurd hc (by simp), ?_, ?_⟩
    · rw [hred, if_pos h]
      rfl
    · refine ⟨CommandError.new (-408) (rpcTimeoutMessage id ms), ?_, ?_⟩
      · rw [hred, if_pos h]
        rfl
      · show "timed out".data <:+: (rpcTimeoutMessage id ms).data
        refine ⟨("Task " ++ toString id ++ " ").data,
          (" after " ++ toString ms ++ "ms").data, ?_⟩
        unfold rpcTimeoutMessage
        simp only [String.data_append, List.append_assoc]
        congr 2
    · rw [hred, if_pos h]
      rfl
  | inner =>
    have hred : RpcManager.handle_rpc_request id (some ms)
        (Command.Shell cmd) duration shellResult TimerRace.inner =
        if ms < duration then
          ({ id := id, result := RpcHandler.handle (Command.Shell cmd)
              (some ms) duration shellResult },
            (Command.Shell cmd).spawnsShellChild)
        else
          ({ id := id, result := RpcHandler.handle (Command.Shell cmd)
              (some ms) duration shellResult }, false) := rfl
    have hres : RpcHandler.handle (Command.Shell cmd) (some ms) duration
        shellResult =
        CommandResult.Error
          (CommandError.internal "Shell execution timed out") := by
      rw [hh, hsr, if_pos h]
    refine ⟨fun hc => absurd hc (by simp), fun _ => ?_, ?_, ?_⟩
    · rw [hred, if_pos h]
      show RpcHandler.handle (Command.Shell cmd) (some ms) duration
        shellResult = _
      rw [hres]
      rfl
    · refine ⟨CommandError.internal "Shell execution timed out", ?_, ?_⟩
      · rw [hred, if_pos h]
        show RpcHandler.handle (Command.Shell cmd) (some ms) duration
          shellResult = _
        rw [hres]
      · show "timed out".data <:+: "Shell execution timed out".data
        exact ⟨"Shell execution ".data, [], by decide⟩
    · rw [hred, if_pos h]
      rfl

/-- Witness for `shell_rpc_timeout_race_behavior` at the spec's scenario:
`Shell("sleep 2")` (a 2000 ms child) under a 1000 ms timer, instantiated at
both race outcomes. -/
theorem shell_rpc_timeout_race_behavior_witness :
    (RpcManager.handle_rpc_request 7 (some 1000) (Command.Shell "sleep 2")
        2000 ⟨"", "", 0⟩ TimerRace.outer).1.result =
      CommandResult.Error
        (CommandError.new (-408) (rpcTimeoutMessage 7 1000)) ∧
      (RpcManager.handle_rpc_request 7 (some 1000) (Command.Shell "sleep 2")
        2000 ⟨"", "", 0⟩ TimerRace.inner).1.result =
      CommandResult.Error
        (CommandError.new (-500) "Shell execution timed out") ∧
      (RpcManager.handle_rpc_request 7 (some 1000) (Command.Shell "sleep 2")
        2000 ⟨"", "", 0⟩ TimerRace.outer).2 = true ∧
      (RpcManager.handle_rpc_request 7 (some 1000) (Command.Shell "sleep 2")
        2000 ⟨"", "", 0⟩ TimerRace.inner).2 = true := by
  have h1 := shell_rpc_timeout_race_behavior 7 1000 2000 "sleep 2"
    ⟨"", "", 0⟩ TimerRace.outer (by omega)
  have h2 := shell_rpc_timeout_race_behavior 7 1000 2000 "sleep 2"
    ⟨"", "", 0⟩ TimerRace.inner (by omega)
  exact ⟨h1.1 rfl, h2.2.1 rfl, h1.2.2.2, h2.2.2.2⟩
